import Mathlib

/-- Leap year test, as in Go's `isLeap`. -/
def isLeapYear (y : Int) : Bool := y % 4 == 0 && (y % 100 != 0 || y % 400 == 0)

/-- Go's `daysBefore` table: days in a non-leap year before the start of month m+1
    (i.e. Go's daysBefore[m]). -/
def daysBefore (m : Int) : Int :=
  if m ≤ 0 then 0 else if m = 1 then 31 else if m = 2 then 59 else if m = 3 then 90
  else if m = 4 then 120 else if m = 5 then 151 else if m = 6 then 181 else if m = 7 then 212
  else if m = 8 then 243 else if m = 9 then 273 else if m = 10 then 304 else if m = 11 then 334
  else 365

/-- Days from 0001-01-01 to January 1 of `year` (Go's `daysSinceEpoch`, re-anchored). -/
def daysSinceYear1 (year : Int) : Int :=
  365 * (year - 1) + (year - 1) / 4 - (year - 1) / 100 + (year - 1) / 400

/-- Days since 1970-01-01 of the civil date (year, month, day); month must be in
    [1,12] (Go's Date normalizes it first), day may be out of range (it enters
    linearly, exactly as in Go's Date). -/
def daysFromCivil (year month day : Int) : Int :=
  daysSinceYear1 year + daysBefore (month - 1) +
    (if isLeapYear year = true ∧ 3 ≤ month then 1 else 0) + (day - 1) - 719162

-- Inverse: Go's absDate cascade (400/100/4/1-year blocks with clamping).
def d0OfZ (z : Int) : Int := z + 719162

def eOfZ (z : Int) : Int := d0OfZ z / 146097

def d1OfZ (z : Int) : Int := d0OfZ z % 146097

def cOfZ (z : Int) : Int := if d1OfZ z / 36524 = 4 then 3 else d1OfZ z / 36524

def d2OfZ (z : Int) : Int := d1OfZ z - 36524 * cOfZ z

def qOfZ (z : Int) : Int := d2OfZ z / 1461

def d3OfZ (z : Int) : Int := d2OfZ z % 1461

def aOfZ (z : Int) : Int := if d3OfZ z / 365 = 4 then 3 else d3OfZ z / 365

/-- The year containing day z (z counted from 1970-01-01), per Go's absDate. -/
def yearOfDays (z : Int) : Int := 400 * eOfZ z + 100 * cOfZ z + 4 * qOfZ z + aOfZ z + 1

/-- 0-based day of year of day z. -/
def ydayOfDays (z : Int) : Int := d3OfZ z - 365 * aOfZ z

/-- Day of year reindexed as in a non-leap year (Go absDate month computation). -/
def adjYday (leap : Bool) (yday : Int) : Int :=
  if leap = true ∧ 59 < yday then yday - 1 else yday

/-- Month (1..12) from the 0-based day of year, per Go's absDate. -/
def monthFromYday (leap : Bool) (yday : Int) : Int :=
  if leap = true ∧ yday = 59 then 2
  else if daysBefore (adjYday leap yday / 31 + 1) ≤ adjYday leap yday then
    adjYday leap yday / 31 + 2
  else adjYday leap yday / 31 + 1

/-- Day of month (1..31) from the 0-based day of year, per Go's absDate. -/
def dayFromYday (leap : Bool) (yday : Int) : Int :=
  if leap = true ∧ yday = 59 then 29
  else if daysBefore (adjYday leap yday / 31 + 1) ≤ adjYday leap yday then
    adjYday leap yday - daysBefore (adjYday leap yday / 31 + 1) + 1
  else adjYday leap yday - daysBefore (adjYday leap yday / 31) + 1

def monthOfDays (z : Int) : Int := monthFromYday (isLeapYear (yearOfDays z)) (ydayOfDays z)

def dayOfDays (z : Int) : Int := dayFromYday (isLeapYear (yearOfDays z)) (ydayOfDays z)

def daysInMonthB (leap : Bool) (m : Int) : Int :=
  if m = 2 then (if leap = true then 29 else 28)
  else daysBefore m - daysBefore (m - 1)

def daysInMonth (y m : Int) : Int := daysInMonthB (isLeapYear y) m

/- Times below model Go time.Time in a fixed-offset location, represented as
   civil (wall-clock) seconds since the Unix epoch, of type Int. -/
-- Go's norm(year, m, 12) month normalization from time.Date, split into its two
-- sequential fixups (m is the 0-based month).
def normY1 (y m : Int) : Int := if m < 0 then y - ((-m - 1) / 12 + 1) else y

def normM1 (m : Int) : Int := if m < 0 then m + ((-m - 1) / 12 + 1) * 12 else m

def normY2 (y m : Int) : Int := if 12 ≤ m then y + m / 12 else y

def normM2 (m : Int) : Int := if 12 ≤ m then m - m / 12 * 12 else m

def normMonthYear (y m : Int) : Int := normY2 (normY1 y m) (normM1 m)

def normMonthMon (m : Int) : Int := normM2 (normM1 m)

/-- Go's time.Date in the configured location: normalizes the month, then the
    remaining fields enter linearly (day via the calendar, clock as seconds). -/
def mkDate (year month day hour minute sec : Int) : Int :=
  86400 * daysFromCivil (normMonthYear year (month - 1)) (normMonthMon (month - 1) + 1) day +
    3600 * hour + 60 * minute + sec

def daysOf (t : Int) : Int := t / 86400

def clockOf (t : Int) : Int := t % 86400

def yearOf (t : Int) : Int := yearOfDays (daysOf t)

def monthOf (t : Int) : Int := monthOfDays (daysOf t)

def dayOf (t : Int) : Int := dayOfDays (daysOf t)

def hourOf (t : Int) : Int := clockOf t / 3600

def minuteOf (t : Int) : Int := clockOf t % 3600 / 60

def secondOf (t : Int) : Int := clockOf t % 60

/-- Go's Weekday (0 = Sunday): 1970-01-01 was a Thursday. -/
def weekdayOf (t : Int) : Int := (daysOf t + 4) % 7

/-- Go's Time.AddDate. -/
def addDate (t : Int) (years months days : Int) : Int :=
  mkDate (yearOf t + years) (monthOf t + months) (dayOf t + days)
    (hourOf t) (minuteOf t) (secondOf t)

/-- GetLastDailyTime from internal/schedule: today's occurrence, or yesterday's
    if today's has not strictly passed (the parseTimeString range check is
    inlined; Sscanf format parsing is elided — h:mi:s stand for the scanned
    HH:MM[:SS] fields). -/
def GetLastDailyTime (h mi s : Int) (now : Int) : Except String Int :=
  if h < 0 ∨ 23 < h ∨ mi < 0 ∨ 59 < mi ∨ s < 0 ∨ 59 < s then .error "time out of range"
  else if now < mkDate (yearOf now) (monthOf now) (dayOf now) h mi s ∨
      mkDate (yearOf now) (monthOf now) (dayOf now) h mi s = now then
    .ok (addDate (mkDate (yearOf now) (monthOf now) (dayOf now) h mi s) 0 0 (-1))
  else .ok (mkDate (yearOf now) (monthOf now) (dayOf now) h mi s)

/-- A time is a firing of the Daily trigger at h:mi:s iff its wall clock reads
    that time of day. -/
def isDailyFire (h mi s : Int) (t : Int) : Prop :=
  hourOf t = h ∧ minuteOf t = mi ∧ secondOf t = s

/-- The days-back computation of GetLastWeeklyTime: distance to the last
    occurrence of the target weekday (7 when today is the target day but the
    trigger time has not yet passed). -/
def weeklyDaysBack (h mi s w : Int) (now : Int) : Int :=
  if (if weekdayOf now - w < 0 then weekdayOf now - w + 7 else weekdayOf now - w) = 0 then
    (if now < mkDate (yearOf now) (monthOf now) (dayOf now) h mi s then 7 else 0)
  else (if weekdayOf now - w < 0 then weekdayOf now - w + 7 else weekdayOf now - w)

/-- GetLastWeeklyTime from internal/schedule (range checks inlined; the weekday
    switch is the 0..6 range test). -/
def GetLastWeeklyTime (h mi s dayOfWeek : Int) (now : Int) : Except String Int :=
  if h < 0 ∨ 23 < h ∨ mi < 0 ∨ 59 < mi ∨ s < 0 ∨ 59 < s then .error "time out of range"
  else if dayOfWeek < 0 ∨ 6 < dayOfWeek then .error "invalid day of week"
  else
    .ok (mkDate (yearOf (addDate now 0 0 (-weeklyDaysBack h mi s dayOfWeek now)))
      (monthOf (addDate now 0 0 (-weeklyDaysBack h mi s dayOfWeek now)))
      (dayOf (addDate now 0 0 (-weeklyDaysBack h mi s dayOfWeek now))) h mi s)

/-- A time is a firing of the Weekly trigger iff it falls on the target weekday
    at the target wall-clock time. -/
def isWeeklyFire (w h mi s : Int) (t : Int) : Prop :=
  weekdayOf t = w ∧ isDailyFire h mi s t

/-- The shared "fall back to the previous month" computation of
    GetLastMonthlyTime: last day of the previous month if dayOfMonth exceeds it,
    otherwise dayOfMonth of the previous month. -/
def monthlyFallback (h mi s dom : Int) (now : Int) : Int :=
  if dayOf (mkDate (yearOf (addDate now 0 (-1) 0)) (monthOf (addDate now 0 (-1) 0) + 1) 0
      h mi s) < dom then
    mkDate (yearOf (addDate now 0 (-1) 0)) (monthOf (addDate now 0 (-1) 0) + 1) 0 h mi s
  else mkDate (yearOf (addDate now 0 (-1) 0)) (monthOf (addDate now 0 (-1) 0)) dom h mi s

/-- First adjustment of GetLastMonthlyTime: if the day does not exist in the
    current month (Date normalized into the next month), fall back. -/
def monthlyStep1 (h mi s dom now : Int) : Int :=
  if monthOf (mkDate (yearOf now) (monthOf now) dom h mi s) ≠ monthOf now
  then monthlyFallback h mi s dom now
  else mkDate (yearOf now) (monthOf now) dom h mi s

/-- Second adjustment: if the candidate has not yet passed, fall back (note: the
    fallback is recomputed from `now`, not from the candidate). -/
def monthlyStep2 (h mi s dom now : Int) : Int :=
  if now < monthlyStep1 h mi s dom now then monthlyFallback h mi s dom now
  else monthlyStep1 h mi s dom now

/-- GetLastMonthlyTime from internal/schedule (range check inlined). -/
def GetLastMonthlyTime (h mi s dom : Int) (now : Int) : Except String Int :=
  if h < 0 ∨ 23 < h ∨ mi < 0 ∨ 59 < mi ∨ s < 0 ∨ 59 < s then .error "time out of range"
  else .ok (monthlyStep2 h mi s dom now)

deriving instance DecidableEq for Except

/-- The zero `time.Time` (January 1, year 1, 00:00:00), the initial `prevTime`. -/
def goZeroSecs : Int := 86400 * daysFromCivil 1 1 1

/-- The forward-simulation loop of GetLastCronTime: advance `lastTime` by the
    schedule's Next until it reaches `now`, then return the previous value.
    `next` is the parsed cron schedule's Next function (robfig parsing elided);
    the fuel is the 10000-iteration safety cap. -/
def cronLoop (next : Int → Int) (now : Int) : Nat → Int → Int → Except String Int
  | 0, prevTime, _ =>
    if prevTime = goZeroSecs then .error "failed to find last cron execution time"
    else .ok prevTime
  | fuel + 1, prevTime, lastTime =>
    if now < lastTime ∨ lastTime = now then
      (if prevTime = goZeroSecs then .error "no cron execution found before now"
       else .ok prevTime)
    else cronLoop next now fuel lastTime (next lastTime)

/-- GetLastCronTime from internal/schedule: start one year before now and walk
    forward. -/
def GetLastCronTime (next : Int → Int) (now : Int) : Except String Int :=
  cronLoop next now 10000 goZeroSecs (next (addDate now (-1) 0 0))

def iterN (next : Int → Int) : Nat → Int → Int
  | 0, t => t
  | k + 1, t => iterN next k (next t)

/-- `next` is the Next function of a cron schedule with firing set `F`: it
    returns the least firing strictly after its argument. -/
def CronNext (F : Int → Prop) (next : Int → Int) : Prop :=
  ∀ t : Int, F (next t) ∧ t < next t ∧ ∀ u : Int, F u → t < u → next t ≤ u

/-- config.Resource: the cloud resource a schedule manages. -/
structure Resource where
  type : String
  id : String
  folderID : String

deriving DecidableEq, Repr

/-- config.ActionConfig. `time` is the parsed HH:MM:SS (none = empty Time string);
    `crontab` is the parsed cron schedule's Next function (none = empty Crontab). -/
structure ActionConfig where
  enabled : Bool
  time : Option (Int × Int × Int)
  day : Int
  crontab : Option (Int → Int)

/-- config.Actions. -/
structure Actions where
  start : Option ActionConfig
  stop : Option ActionConfig

/-- config.Schedule. -/
structure Schedule where
  name : String
  type : String
  resource : Resource
  actions : Actions

/-- validator.getLastExecutionTime: dispatch on the schedule type with the
    source's per-type guards. -/
def getLastExecutionTime (sch : Schedule) (action : ActionConfig) (now : Int) :
    Except String Int :=
  if sch.type = "daily" then
    match action.time with
    | none => .error "daily schedule missing time"
    | some (h, mi, s) => GetLastDailyTime h mi s now
  else if sch.type = "weekly" then
    match action.time with
    | none => .error "weekly schedule missing time"
    | some (h, mi, s) =>
      if action.day < 0 ∨ 6 < action.day then .error "weekly schedule invalid day"
      else GetLastWeeklyTime h mi s action.day now
  else if sch.type = "monthly" then
    match action.time with
    | none => .error "monthly schedule missing time"
    | some (h, mi, s) =>
      if action.day < 1 ∨ 31 < action.day then .error "monthly schedule invalid day"
      else GetLastMonthlyTime h mi s action.day now
  else if sch.type = "cron" then
    match action.crontab with
    | none => .error "cron schedule missing crontab"
    | some next => GetLastCronTime next now
  else .error "unknown schedule type"

def hasStart (sch : Schedule) : Bool :=
  match sch.actions.start with
  | some a => a.enabled
  | none => false

def hasStop (sch : Schedule) : Bool :=
  match sch.actions.stop with
  | some a => a.enabled
  | none => false

/-- validator.determineExpectedState (time arithmetic happens in the fixed
    configured location, so the timezone lookup is elided). The final `("", "")`
    arm of the both-enabled branch is unreachable given the guards. -/
def determineExpectedState (sch : Schedule) (now : Int) : String × String :=
  if hasStart sch = true ∧ ¬hasStop sch = true then ("running", "start")
  else if hasStop sch = true ∧ ¬hasStart sch = true then ("stopped", "stop")
  else if hasStart sch = true ∧ hasStop sch = true then
    match sch.actions.start, sch.actions.stop with
    | some sa, some so =>
      (match getLastExecutionTime sch sa now with
       | .error _ => ("running", "start")
       | .ok lastStartTime =>
         match getLastExecutionTime sch so now with
         | .error _ => ("stopped", "stop")
         | .ok lastStopTime =>
           if lastStopTime < lastStartTime then ("running", "start")
           else ("stopped", "stop"))
    | _, _ => ("", "")
  else ("", "")

/-- The outcome of one invocation of the executor closure: which operator call
    was made (if any), the IncOperation status label, and the IncSchedulerSkip
    reason (if skipped). -/
structure ExecOutcome where
  operatorCalled : Option String
  status : String
  skipReason : Option String

deriving DecidableEq, Repr

/-- The body of the closure returned by executor.Make, as a function of its
    inputs: the dry-run flag, the action, the state checker's answer
    (state, isTransitional) or error, and the operator call's result. -/
def executorRun (action : String) (dryRun : Bool)
    (stateResult : Except String (String × Bool)) (opResult : Except String Unit) :
    ExecOutcome :=
  if dryRun = true then ⟨none, "dry_run", none⟩
  else if action ≠ "start" ∧ action ≠ "stop" then ⟨none, "error", none⟩
  else
    match stateResult with
    | .error _ =>
      (match opResult with
       | .error _ => ⟨some action, "error", none⟩
       | .ok _ => ⟨some action, "success", none⟩)
    | .ok (currentState, isTransitional) =>
      if isTransitional = true then ⟨none, "skipped", some "transitional_state"⟩
      else if (action = "start" ∧ currentState = "running") ∨
          (action = "stop" ∧ currentState = "stopped") then
        ⟨none, "skipped", some "already_in_state"⟩
      else
        match opResult with
        | .error _ => ⟨some action, "error", none⟩
        | .ok _ => ⟨some action, "success", none⟩

/-- resource.getVMState: map the instance status (query result) to
    (state, isTransitional). -/
def getVMState (q : Except String String) : Except String (String × Bool) :=
  match q with
  | .error e => .error e
  | .ok status =>
    if status = "RUNNING" then .ok ("running", false)
    else if status = "STOPPED" then .ok ("stopped", false)
    else .ok (status, true)

/-- resource.getClusterState. -/
def getClusterState (q : Except String String) : Except String (String × Bool) :=
  match q with
  | .error e => .error e
  | .ok status =>
    if status = "RUNNING" then .ok ("running", false)
    else if status = "STOPPED" then .ok ("stopped", false)
    else .ok (status, true)

/-- resource.StateChecker.GetState: dispatch on resource type; the default arm
    returns ("", false, nil). `vmq`/`clq` are the cloud queries' answers. -/
def GetState (vmq clq : Except String String) (r : Resource) :
    Except String (String × Bool) :=
  if r.type = "vm" then getVMState vmq
  else if r.type = "k8s_cluster" then getClusterState clq
  else .ok ("", false)

/-- One iteration of validator.runOnce's loop for a single schedule: the list of
    corrective one-shot jobs submitted for it (empty on any `continue`). -/
def validatorCheckOne (getStateF : Resource → Except String (String × Bool))
    (sch : Schedule) (now : Int) : List String :=
  match getStateF sch.resource with
  | .error _ => []
  | .ok (actualState, isTransitional) =>
    if isTransitional = true then []
    else if (determineExpectedState sch now).2 = "" then []
    else if actualState ≠ (determineExpectedState sch now).1 then
      [sch.name ++ ":validator:" ++ (determineExpectedState sch now).2]
    else []

/-- validator.runOnce: iterate over all schedules, collecting submitted
    corrective jobs. -/
def runOnce (getStateF : Resource → Except String (String × Bool))
    (schedules : List Schedule) (now : Int) : List String :=
  match schedules with
  | [] => []
  | sch :: rest => validatorCheckOne getStateF sch now ++ runOnce getStateF rest now

/-- A gocron job as the scheduler sees it: name and tags. -/
structure Job where
  name : String
  tags : List String

deriving DecidableEq, Repr

def managedScheduleTag : String := "managed_schedule"

/-- gocron's RemoveByTags for a single tag. -/
def removeByTags (jobs : List Job) (tag : String) : List Job :=
  jobs.filter (fun j => !(j.tags.contains tag))

/-- Scheduler.addJobUnlocked: a new job with the managed tag. -/
def addJobUnlocked (jobs : List Job) (name : String) : List Job :=
  jobs ++ [⟨name, [managedScheduleTag]⟩]

/-- Scheduler.AddOneTimeJob: a new untagged one-shot job. -/
def AddOneTimeJob (jobs : List Job) (name : String) : List Job :=
  jobs ++ [⟨name, []⟩]

/-- A gocron JobDefinition produced by ScheduleToJobDefinition. -/
inductive JobDefinition where
  | cronJob (next : Int → Int)
  | dailyJob (h mi s : Int)
  | weeklyJob (day h mi s : Int)
  | monthlyJob (day h mi s : Int)

/-- scheduler.ScheduleToJobDefinition, with the source's validation. -/
def ScheduleToJobDefinition (sch : Schedule) (action : ActionConfig) :
    Except String JobDefinition :=
  if sch.type = "cron" then
    match action.crontab with
    | none => .error "cron schedule missing crontab"
    | some next => .ok (.cronJob next)
  else if sch.type = "daily" then
    match action.time with
    | none => .error "daily schedule missing time"
    | some (h, mi, s) =>
      if h < 0 ∨ 23 < h ∨ mi < 0 ∨ 59 < mi ∨ s < 0 ∨ 59 < s then .error "time out of range"
      else .ok (.dailyJob h mi s)
  else if sch.type = "weekly" then
    match action.time with
    | none => .error "weekly schedule missing time"
    | some (h, mi, s) =>
      if action.day < 0 ∨ 6 < action.day then .error "weekly schedule invalid day"
      else if h < 0 ∨ 23 < h ∨ mi < 0 ∨ 59 < mi ∨ s < 0 ∨ 59 < s then
        .error "time out of range"
      else .ok (.weeklyJob action.day h mi s)
  else if sch.type = "monthly" then
    match action.time with
    | none => .error "monthly schedule missing time"
    | some (h, mi, s) =>
      if action.day < 1 ∨ 31 < action.day then .error "monthly schedule invalid day"
      else if h < 0 ∨ 23 < h ∨ mi < 0 ∨ 59 < mi ∨ s < 0 ∨ 59 < s then
        .error "time out of range"
      else .ok (.monthlyJob action.day h mi s)
  else .error "unknown schedule type"

/-- One action's registration step inside registerScheduleUnlocked: validate the
    job definition and append the named managed job when the action is enabled. -/
def registerAction (jobs : List Job) (sch : Schedule) :
    Option ActionConfig → String → Except String (List Job)
  | some a, suffix =>
    if a.enabled = true then
      match ScheduleToJobDefinition sch a with
      | .error e => .error e
      | .ok _ => .ok (addJobUnlocked jobs (sch.name ++ suffix))
    else .ok jobs
  | none, _ => .ok jobs

/-- The stop half of registerScheduleUnlocked, applied to the start half's
    outcome (fail-fast on error). -/
def registerStop (sch : Schedule) : Except String (List Job) → Except String (List Job)
  | .error e => .error e
  | .ok jobs1 => registerAction jobs1 sch sch.actions.stop ":stop"

/-- scheduler.registerScheduleUnlocked: register the start job then the stop job
    for the enabled actions, failing fast on a bad definition. -/
def registerScheduleUnlocked (jobs : List Job) (sch : Schedule) :
    Except String (List Job) :=
  registerStop sch (registerAction jobs sch sch.actions.start ":start")

/-- The loop body of RegisterSchedules/ReplaceSchedules over a schedule list. -/
def registerAll (jobs : List Job) : List Schedule → Except String (List Job)
  | [] => .ok jobs
  | sch :: rest =>
    match registerScheduleUnlocked jobs sch with
    | .error e => .error e
    | .ok jobs1 => registerAll jobs1 rest

/-- scheduler.ReplaceSchedules: drop every managed-tagged job, then register the
    new set. -/
def ReplaceSchedules (jobs : List Job) (schedules : List Schedule) :
    Except String (List Job) :=
  registerAll (removeByTags jobs managedScheduleTag) schedules

/-- The managed job one action contributes (specification of registerAction's
    success case). -/
def actionJobs (sch : Schedule) : Option ActionConfig → String → List Job
  | some a, suffix =>
    if a.enabled = true then [⟨sch.name ++ suffix, [managedScheduleTag]⟩] else []
  | none, _ => []

/-- The managed jobs a schedule contributes. -/
def scheduleJobs (sch : Schedule) : List Job :=
  actionJobs sch sch.actions.start ":start" ++ actionJobs sch sch.actions.stop ":stop"

def schedulesJobs : List Schedule → List Job
  | [] => []
  | sch :: rest => scheduleJobs sch ++ schedulesJobs rest

/-- reloader.Reloader's mutable signature state. -/
structure ReloaderState where
  lastSig : Nat
  hasLastSig : Bool

deriving DecidableEq, Repr

/-- reloader.tick: `sigResult` is calcDirSignature's answer, `onChangeResult`
    the callback's. Returns the new state and whether the callback was invoked.
    Note the signature is stored whether or not the callback succeeded. -/
def tick (st : ReloaderState) (sigResult : Except String Nat)
    (onChangeResult : Except String Unit) : ReloaderState × Bool :=
  match sigResult with
  | .error _ => (st, false)
  | .ok sig =>
    if st.hasLastSig = true ∧ sig = st.lastSig then (st, false)
    else
      match onChangeResult with
      | .error _ => (⟨sig, true⟩, true)
      | .ok _ => (⟨sig, true⟩, true)

/-- State of the in-flight lock protocol for one key and two concurrent
    invocations A and B of the same executor closure.
    pc values: 0 = not yet tried, 1 = holding (before the operator call),
    2 = holding (operator called), 3 = done (released), 4 = done (skipped). -/
structure LockState where
  pcA : Nat
  pcB : Nat
  held : Bool
  ops : Nat
  skippedA : Bool
  skippedB : Bool

deriving DecidableEq, Repr

/-- Modelled from the spec: the executor's in-flight lock step
    (insert-if-absent on entry, operator call while holding, unconditional
    release on exit; a second caller that finds the key held records
    "skipped: in-flight" and returns). The lock implementation
    (operationLocks / newInFlightLocks) is absent from src; this models
    spec steps 1-2 of the Executor contract and the executor lock test.
    tid false = invocation A, true = invocation B. -/
def lockStep (s : LockState) (tid : Bool) : LockState :=
  if tid = false then
    match s.pcA with
    | 0 => if s.held = true then { s with pcA := 4, skippedA := true }
           else { s with pcA := 1, held := true }
    | 1 => { s with pcA := 2, ops := s.ops + 1 }
    | 2 => { s with pcA := 3, held := false }
    | _ => s
  else
    match s.pcB with
    | 0 => if s.held = true then { s with pcB := 4, skippedB := true }
           else { s with pcB := 1, held := true }
    | 1 => { s with pcB := 2, ops := s.ops + 1 }
    | 2 => { s with pcB := 3, held := false }
    | _ => s

def lockRun (s : LockState) : List Bool → LockState
  | [] => s
  | t :: ts => lockRun (lockStep s t) ts

def lockInit : LockState := ⟨0, 0, false, 0, false, false⟩

def LockInv (s : LockState) : Prop :=
  s.pcA ≤ 4 ∧ s.pcB ≤ 4 ∧
  s.ops = (if s.pcA = 2 ∨ s.pcA = 3 then 1 else 0) +
    (if s.pcB = 2 ∨ s.pcB = 3 then 1 else 0) ∧
  (s.held = true ↔ (s.pcA = 1 ∨ s.pcA = 2 ∨ s.pcB = 1 ∨ s.pcB = 2)) ∧
  ¬((s.pcA = 1 ∨ s.pcA = 2) ∧ (s.pcB = 1 ∨ s.pcB = 2)) ∧
  (s.skippedA = true ↔ s.pcA = 4) ∧ (s.skippedB = true ↔ s.pcB = 4) ∧
  (s.pcA = 4 → (s.pcB = 1 ∨ s.pcB = 2 ∨ s.pcB = 3)) ∧
  (s.pcB = 4 → (s.pcA = 1 ∨ s.pcA = 2 ∨ s.pcA = 3))

/-- A sample VM resource for concrete instances. -/
def sampleResource : Resource := ⟨"vm", "vm-1", "folder-1"⟩

/-- A daily start action at 09:00. -/
def startAt9 : ActionConfig := ⟨true, some (9, 0, 0), 0, none⟩

/-- A daily stop action at 18:00. -/
def stopAt18 : ActionConfig := ⟨true, some (18, 0, 0), 0, none⟩

/-- A daily action with an empty time string. -/
def noTimeAction : ActionConfig := ⟨true, none, 0, none⟩

/-- A schedule with daily start 09:00 and stop 18:00. -/
def sampleDailySchedule : Schedule :=
  ⟨"sample", "daily", sampleResource, ⟨some startAt9, some stopAt18⟩⟩

/-- A schedule whose start trigger cannot be computed (missing time). -/
def sampleMissingStartTime : Schedule :=
  ⟨"bad-start", "daily", sampleResource, ⟨some noTimeAction, some stopAt18⟩⟩

/-- A schedule whose stop trigger cannot be computed (missing time). -/
def sampleMissingStopTime : Schedule :=
  ⟨"bad-stop", "daily", sampleResource, ⟨some startAt9, some noTimeAction⟩⟩

/-- The replacement schedule of the spec's hot-reload example: only a stop action. -/
def newStopSchedule : Schedule :=
  ⟨"new", "daily", sampleResource, ⟨none, some stopAt18⟩⟩

/-- The engine job set of the spec's hot-reload example before the reload:
    two managed jobs of the old schedule plus an untagged one-shot. -/
def exampleJobsBefore : List Job :=
  AddOneTimeJob (addJobUnlocked (addJobUnlocked [] ("old" ++ ":start")) ("old" ++ ":stop"))
    ("validator:keep")

/-- The expected job set after replacing with `newStopSchedule`. -/
def exampleJobsAfter : List Job :=
  [⟨"validator:keep", []⟩, ⟨"new" ++ ":stop", [managedScheduleTag]⟩]


theorem cascade_rel (z : Int) :
    z + 719162 =
      146097 * eOfZ z + 36524 * cOfZ z + 1461 * qOfZ z + 365 * aOfZ z + ydayOfDays z ∧
    0 ≤ cOfZ z ∧ cOfZ z ≤ 3 ∧ 0 ≤ qOfZ z ∧ qOfZ z ≤ 24 ∧ 0 ≤ aOfZ z ∧ aOfZ z ≤ 3 ∧
    0 ≤ ydayOfDays z ∧ ydayOfDays z ≤ 365 ∧
    (ydayOfDays z = 365 → aOfZ z = 3 ∧ (qOfZ z ≠ 24 ∨ cOfZ z = 3)) := by
  unfold ydayOfDays aOfZ d3OfZ qOfZ d2OfZ cOfZ d1OfZ eOfZ d0OfZ
  omega

theorem isLeapYear_iff (y : Int) :
    isLeapYear y = true ↔ y % 4 = 0 ∧ (y % 100 ≠ 0 ∨ y % 400 = 0) := by
  simp [isLeapYear]

theorem leap_iff (z : Int) :
    isLeapYear (yearOfDays z) = true ↔ aOfZ z = 3 ∧ (qOfZ z ≠ 24 ∨ cOfZ z = 3) := by
  have h := cascade_rel z
  rw [isLeapYear_iff]
  unfold yearOfDays
  omega

theorem daysSinceYear1_of_yearOfDays (z : Int) :
    daysSinceYear1 (yearOfDays z) =
      146097 * eOfZ z + 36524 * cOfZ z + 1461 * qOfZ z + 365 * aOfZ z := by
  have h := cascade_rel z
  unfold daysSinceYear1 yearOfDays
  omega

theorem month_day_table (leap : Bool) (yday : Int) (h0 : 0 ≤ yday)
    (h1 : yday ≤ 364 + (if leap = true then 1 else 0)) :
    1 ≤ monthFromYday leap yday ∧ monthFromYday leap yday ≤ 12 ∧
    1 ≤ dayFromYday leap yday ∧
    dayFromYday leap yday ≤ daysInMonthB leap (monthFromYday leap yday) ∧
    daysBefore (monthFromYday leap yday - 1) +
      (if leap = true ∧ 3 ≤ monthFromYday leap yday then 1 else 0) +
      (dayFromYday leap yday - 1) = yday := by
  unfold monthFromYday dayFromYday adjYday
  cases leap
  case false =>
    simp only [Bool.false_eq_true, false_and, if_false, reduceIte] at h1 ⊢
    have hdb : 31 * (yday / 31) ≤ yday ∧ yday < 31 * (yday / 31) + 31 ∧
        0 ≤ yday / 31 ∧ yday / 31 ≤ 11 := by omega
    generalize hm0 : yday / 31 = m0 at hdb ⊢
    obtain ⟨hd1, hd2, hd3, hd4⟩ := hdb
    by_cases hcmp : daysBefore (m0 + 1) ≤ yday <;>
      simp only [hcmp, if_true, if_false, reduceIte] <;>
      interval_cases m0 <;>
      norm_num [daysBefore, daysInMonthB] at hcmp ⊢ <;>
      omega
  case true =>
    simp only [eq_self_iff_true, true_and, if_true, reduceIte] at h1 ⊢
    by_cases h59 : yday = 59
    · simp only [h59, if_true, reduceIte]
      norm_num [daysBefore, daysInMonthB]
    · simp only [h59, if_false, reduceIte, ite_false]
      by_cases hgt : 59 < yday
      · simp only [hgt, if_true, reduceIte, ite_true]
        have hdb : 31 * ((yday - 1) / 31) ≤ yday - 1 ∧ yday - 1 < 31 * ((yday - 1) / 31) + 31 ∧
            0 ≤ (yday - 1) / 31 ∧ (yday - 1) / 31 ≤ 11 := by omega
        generalize hm0 : (yday - 1) / 31 = m0 at hdb ⊢
        obtain ⟨hd1, hd2, hd3, hd4⟩ := hdb
        by_cases hcmp : daysBefore (m0 + 1) ≤ yday - 1 <;>
          simp only [hcmp, if_true, if_false, reduceIte] <;>
          interval_cases m0 <;>
          norm_num [daysBefore, daysInMonthB] at hcmp ⊢ <;>
          omega
      · simp only [hgt, if_false, reduceIte, ite_false]
        have hdb : 31 * (yday / 31) ≤ yday ∧ yday < 31 * (yday / 31) + 31 ∧
            0 ≤ yday / 31 ∧ yday / 31 ≤ 11 := by omega
        generalize hm0 : yday / 31 = m0 at hdb ⊢
        obtain ⟨hd1, hd2, hd3, hd4⟩ := hdb
        by_cases hcmp : daysBefore (m0 + 1) ≤ yday <;>
          simp only [hcmp, if_true, if_false, reduceIte] <;>
          interval_cases m0 <;>
          norm_num [daysBefore, daysInMonthB] at hcmp ⊢ <;>
          omega

theorem yday_le (z : Int) :
    ydayOfDays z ≤ 364 + (if isLeapYear (yearOfDays z) = true then 1 else 0) := by
  have h1 := cascade_rel z
  by_cases hL : isLeapYear (yearOfDays z) = true
  · simp only [hL, if_true, reduceIte]
    omega
  · simp only [hL, if_false, reduceIte]
    have hA : ¬(aOfZ z = 3 ∧ (qOfZ z ≠ 24 ∨ cOfZ z = 3)) := fun h => hL ((leap_iff z).mpr h)
    omega

/-- Analysis: the (year, month, day) read back from a day number is a valid civil
    date mapping back to the same day number. -/
theorem date_analysis (z : Int) :
    1 ≤ monthOfDays z ∧ monthOfDays z ≤ 12 ∧ 1 ≤ dayOfDays z ∧
    dayOfDays z ≤ daysInMonth (yearOfDays z) (monthOfDays z) ∧
    daysFromCivil (yearOfDays z) (monthOfDays z) (dayOfDays z) = z := by
  have h1 := cascade_rel z
  have htab := month_day_table (isLeapYear (yearOfDays z)) (ydayOfDays z) (by omega) (yday_le z)
  rw [show monthFromYday (isLeapYear (yearOfDays z)) (ydayOfDays z) = monthOfDays z from rfl,
      show dayFromYday (isLeapYear (yearOfDays z)) (ydayOfDays z) = dayOfDays z from rfl] at htab
  refine ⟨htab.1, htab.2.1, htab.2.2.1, htab.2.2.2.1, ?_⟩
  have heq := htab.2.2.2.2
  unfold daysFromCivil
  rw [daysSinceYear1_of_yearOfDays]
  omega

theorem cascade_unique (e c q a yd e2 c2 q2 a2 yd2 : Int)
    (h : 146097 * e + 36524 * c + 1461 * q + 365 * a + yd =
         146097 * e2 + 36524 * c2 + 1461 * q2 + 365 * a2 + yd2)
    (hc : 0 ≤ c ∧ c ≤ 3) (hq : 0 ≤ q ∧ q ≤ 24) (ha : 0 ≤ a ∧ a ≤ 3)
    (hy : 0 ≤ yd ∧ yd ≤ 365) (hb : yd = 365 → a = 3 ∧ (q ≠ 24 ∨ c = 3))
    (hc2 : 0 ≤ c2 ∧ c2 ≤ 3) (hq2 : 0 ≤ q2 ∧ q2 ≤ 24) (ha2 : 0 ≤ a2 ∧ a2 ≤ 3)
    (hy2 : 0 ≤ yd2 ∧ yd2 ≤ 365) (hb2 : yd2 = 365 → a2 = 3 ∧ (q2 ≠ 24 ∨ c2 = 3)) :
    e = e2 ∧ c = c2 ∧ q = q2 ∧ a = a2 ∧ yd = yd2 := by
  have he : e = e2 := by omega
  have hm1 : 1461 * q + 365 * a + yd = 36524 → c = 3 := by omega
  have hm2 : 1461 * q2 + 365 * a2 + yd2 = 36524 → c2 = 3 := by omega
  have hcc : c = c2 := by omega
  have hqq : q = q2 := by omega
  have haa : a = a2 := by omega
  exact ⟨he, hcc, hqq, haa, by omega⟩

/-- Common core of the specialized synthesis lemmas: a day number decomposed as
    year start plus a day-of-year reads back the given year. -/
theorem year_synthesis (y yd : Int) (hy1 : 0 ≤ yd) (hy2 : yd ≤ 364) :
    yearOfDays (daysSinceYear1 y + yd - 719162) = y ∧
    ydayOfDays (daysSinceYear1 y + yd - 719162) = yd := by
  obtain ⟨e2, c2, q2, a2, he, hc1, hc2, hq1, hq2, ha1, ha2⟩ :
      ∃ e c q a : Int, y - 1 = 400 * e + 100 * c + 4 * q + a ∧
        0 ≤ c ∧ c ≤ 3 ∧ 0 ≤ q ∧ q ≤ 24 ∧ 0 ≤ a ∧ a ≤ 3 :=
    ⟨(y - 1) / 400, (y - 1) % 400 / 100, (y - 1) % 400 % 100 / 4, (y - 1) % 400 % 100 % 4,
      by omega, by omega, by omega, by omega, by omega, by omega, by omega⟩
  have hsy : daysSinceYear1 y = 146097 * e2 + 36524 * c2 + 1461 * q2 + 365 * a2 := by
    unfold daysSinceYear1; omega
  have hcr := cascade_rel (daysSinceYear1 y + yd - 719162)
  have hch := cascade_unique (eOfZ (daysSinceYear1 y + yd - 719162))
    (cOfZ (daysSinceYear1 y + yd - 719162)) (qOfZ (daysSinceYear1 y + yd - 719162))
    (aOfZ (daysSinceYear1 y + yd - 719162)) (ydayOfDays (daysSinceYear1 y + yd - 719162))
    e2 c2 q2 a2 yd
    (by omega) (by omega) (by omega) (by omega) (by omega) (by omega)
    (by omega) (by omega) (by omega) (by omega) (by omega)
  constructor
  · unfold yearOfDays; omega
  · omega

/-- Synthesis specialized to January: valid January dates read back as themselves. -/
theorem date_synthesis_jan (y d : Int) (hd1 : 1 ≤ d) (hd2 : d ≤ 31) :
    yearOfDays (daysFromCivil y 1 d) = y ∧ monthOfDays (daysFromCivil y 1 d) = 1 ∧
    dayOfDays (daysFromCivil y 1 d) = d := by
  have hzf : daysFromCivil y 1 d = daysSinceYear1 y + (d - 1) - 719162 := by
    unfold daysFromCivil daysBefore
    have : ¬(isLeapYear y = true ∧ (3 : Int) ≤ 1) := by omega
    rw [if_neg this]
    omega
  rw [hzf]
  have hy := year_synthesis y (d - 1) (by omega) (by omega)
  refine ⟨hy.1, ?_, ?_⟩
  · show monthFromYday (isLeapYear (yearOfDays (daysSinceYear1 y + (d - 1) - 719162)))
      (ydayOfDays (daysSinceYear1 y + (d - 1) - 719162)) = 1
    rw [hy.1, hy.2]
    unfold monthFromYday adjYday
    have h31 : (d - 1) / 31 = 0 := by omega
    cases hL : isLeapYear y <;>
      simp only [Bool.false_eq_true, false_and, if_false, eq_self_iff_true, true_and, if_true,
        reduceIte, h31] <;>
      unfold daysBefore <;>
      omega
  · show dayFromYday (isLeapYear (yearOfDays (daysSinceYear1 y + (d - 1) - 719162)))
      (ydayOfDays (daysSinceYear1 y + (d - 1) - 719162)) = d
    rw [hy.1, hy.2]
    unfold dayFromYday adjYday
    have h31 : (d - 1) / 31 = 0 := by omega
    cases hL : isLeapYear y <;>
      simp only [Bool.false_eq_true, false_and, if_false, eq_self_iff_true, true_and, if_true,
        reduceIte, h31] <;>
      unfold daysBefore <;>
      omega

/-- Synthesis specialized to March: valid March dates read back as themselves. -/
theorem date_synthesis_mar (y d : Int) (hd1 : 1 ≤ d) (hd2 : d ≤ 31) :
    yearOfDays (daysFromCivil y 3 d) = y ∧ monthOfDays (daysFromCivil y 3 d) = 3 ∧
    dayOfDays (daysFromCivil y 3 d) = d := by
  have hlb : (if isLeapYear y = true then (1 : Int) else 0) = 0 ∨
      (if isLeapYear y = true then (1 : Int) else 0) = 1 := by
    cases isLeapYear y <;> simp
  have hzf : daysFromCivil y 3 d =
      daysSinceYear1 y + (59 + (if isLeapYear y = true then (1 : Int) else 0) + (d - 1)) -
        719162 := by
    unfold daysFromCivil daysBefore
    have h3 : ((3 : Int) ≤ 3) := by omega
    cases hL : isLeapYear y <;>
      simp only [Bool.false_eq_true, false_and, if_false, eq_self_iff_true, true_and, if_true,
        reduceIte] <;>
      omega
  rw [hzf]
  have hy := year_synthesis y (59 + (if isLeapYear y = true then (1 : Int) else 0) + (d - 1))
    (by omega) (by omega)
  refine ⟨hy.1, ?_, ?_⟩
  · show monthFromYday
      (isLeapYear (yearOfDays (daysSinceYear1 y +
        (59 + (if isLeapYear y = true then (1 : Int) else 0) + (d - 1)) - 719162)))
      (ydayOfDays (daysSinceYear1 y +
        (59 + (if isLeapYear y = true then (1 : Int) else 0) + (d - 1)) - 719162)) = 3
    rw [hy.1, hy.2]
    unfold monthFromYday adjYday
    cases hL : isLeapYear y <;>
      simp only [Bool.false_eq_true, false_and, if_false, eq_self_iff_true, true_and, if_true,
        reduceIte] <;>
      unfold daysBefore <;>
      omega
  · show dayFromYday
      (isLeapYear (yearOfDays (daysSinceYear1 y +
        (59 + (if isLeapYear y = true then (1 : Int) else 0) + (d - 1)) - 719162)))
      (ydayOfDays (daysSinceYear1 y +
        (59 + (if isLeapYear y = true then (1 : Int) else 0) + (d - 1)) - 719162)) = d
    rw [hy.1, hy.2]
    unfold dayFromYday adjYday
    cases hL : isLeapYear y <;>
      simp only [Bool.false_eq_true, false_and, if_false, eq_self_iff_true, true_and, if_true,
        reduceIte] <;>
      unfold daysBefore <;>
      omega

theorem norm_id (y m : Int) (h0 : 0 ≤ m) (h1 : m ≤ 11) :
    normMonthYear y m = y ∧ normMonthMon m = m := by
  unfold normMonthYear normMonthMon normY2 normM2 normY1 normM1
  omega

theorem norm_negm (y m : Int) (h0 : -12 ≤ m) (h1 : m ≤ -1) :
    normMonthYear y m = y - 1 ∧ normMonthMon m = m + 12 := by
  unfold normMonthYear normMonthMon normY2 normM2 normY1 normM1
  omega

theorem norm_over (y m : Int) (h0 : 12 ≤ m) (h1 : m ≤ 23) :
    normMonthYear y m = y + 1 ∧ normMonthMon m = m - 12 := by
  unfold normMonthYear normMonthMon normY2 normM2 normY1 normM1
  omega

theorem clock_split (t : Int) : t = 86400 * daysOf t + clockOf t ∧
    0 ≤ clockOf t ∧ clockOf t < 86400 := by
  unfold daysOf clockOf; omega

theorem clock_parts (t : Int) :
    3600 * hourOf t + 60 * minuteOf t + secondOf t = clockOf t ∧
    0 ≤ hourOf t ∧ hourOf t ≤ 23 ∧ 0 ≤ minuteOf t ∧ minuteOf t ≤ 59 ∧
    0 ≤ secondOf t ∧ secondOf t ≤ 59 := by
  unfold hourOf minuteOf secondOf clockOf
  omega

/-- Writing a time's own civil date back through mkDate lands on the same day,
    with the requested clock. -/
theorem mkDate_self (t : Int) (h mi s : Int) :
    mkDate (yearOf t) (monthOf t) (dayOf t) h mi s =
      86400 * daysOf t + 3600 * h + 60 * mi + s := by
  have ha := date_analysis (daysOf t)
  have hn := norm_id (yearOf t) (monthOf t - 1) (by unfold monthOf; omega)
    (by unfold monthOf; omega)
  unfold mkDate
  rw [hn.1, hn.2]
  unfold yearOf monthOf dayOf at *
  rw [show monthOfDays (daysOf t) - 1 + 1 = monthOfDays (daysOf t) from by omega, ha.2.2.2.2]

/-- mkDate with a shifted day is a day shift, as the day enters linearly. -/
theorem mkDate_day_shift (y m d k h mi s : Int) :
    mkDate y m (d + k) h mi s = mkDate y m d h mi s + 86400 * k := by
  unfold mkDate daysFromCivil
  ring

/-- Writing a day number's civil date back through mkDate lands on that day, with
    the requested clock. -/
theorem mkDate_days (z h mi s : Int) :
    mkDate (yearOfDays z) (monthOfDays z) (dayOfDays z) h mi s =
      86400 * z + 3600 * h + 60 * mi + s := by
  have ha := date_analysis z
  have hn := norm_id (yearOfDays z) (monthOfDays z - 1) (by omega) (by omega)
  unfold mkDate
  rw [hn.1, hn.2]
  rw [show monthOfDays z - 1 + 1 = monthOfDays z from by omega, ha.2.2.2.2]

/-- AddDate by days only shifts whole days, keeping the clock. -/
theorem addDate_day (t k : Int) : addDate t 0 0 k = 86400 * (daysOf t + k) + clockOf t := by
  unfold addDate
  rw [add_zero, add_zero, mkDate_day_shift, mkDate_self]
  have := clock_parts t
  omega

theorem isDailyFire_iff (h mi s : Int) (t : Int) (h1 : 0 ≤ h) (h2 : h ≤ 23)
    (h3 : 0 ≤ mi) (h4 : mi ≤ 59) (h5 : 0 ≤ s) (h6 : s ≤ 59) :
    isDailyFire h mi s t ↔ t % 86400 = 3600 * h + 60 * mi + s := by
  unfold isDailyFire hourOf minuteOf secondOf clockOf
  omega

theorem daily_last_fire (h mi s : Int) (now r : Int)
    (hok : GetLastDailyTime h mi s now = .ok r) :
    r < now ∧ isDailyFire h mi s r ∧
    ∀ t : Int, isDailyFire h mi s t → r < t → ¬ t < now := by
  unfold GetLastDailyTime at hok
  split at hok
  · exact absurd hok (by simp)
  case isFalse hrange =>
  rw [mkDate_self now h mi s] at hok
  have hcs := clock_split now
  have hoff : daysOf (86400 * daysOf now + 3600 * h + 60 * mi + s) = daysOf now ∧
      clockOf (86400 * daysOf now + 3600 * h + 60 * mi + s) = 3600 * h + 60 * mi + s := by
    unfold daysOf clockOf
    omega
  split at hok
  case isTrue hge =>
    rw [addDate_day, hoff.1, hoff.2] at hok
    have hr : r = 86400 * (daysOf now - 1) + (3600 * h + 60 * mi + s) := by
      cases hok; omega
    refine ⟨by omega, ?_, ?_⟩
    · rw [isDailyFire_iff h mi s r (by omega) (by omega) (by omega) (by omega) (by omega)
        (by omega)]
      omega
    · intro t hft hrt
      rw [isDailyFire_iff h mi s t (by omega) (by omega) (by omega) (by omega) (by omega)
        (by omega)] at hft
      omega
  case isFalse hlt =>
    have hr : r = 86400 * daysOf now + (3600 * h + 60 * mi + s) := by
      cases hok; omega
    refine ⟨by omega, ?_, ?_⟩
    · rw [isDailyFire_iff h mi s r (by omega) (by omega) (by omega) (by omega) (by omega)
        (by omega)]
      omega
    · intro t hft hrt
      rw [isDailyFire_iff h mi s t (by omega) (by omega) (by omega) (by omega) (by omega)
        (by omega)] at hft
      omega

theorem isWeeklyFire_iff (w h mi s : Int) (t : Int) (h1 : 0 ≤ h) (h2 : h ≤ 23)
    (h3 : 0 ≤ mi) (h4 : mi ≤ 59) (h5 : 0 ≤ s) (h6 : s ≤ 59) :
    isWeeklyFire w h mi s t ↔
      (t / 86400 + 4) % 7 = w ∧ t % 86400 = 3600 * h + 60 * mi + s := by
  unfold isWeeklyFire weekdayOf daysOf
  rw [isDailyFire_iff h mi s t h1 h2 h3 h4 h5 h6]

theorem weeklyDaysBack_spec (h mi s w now : Int) (hw1 : 0 ≤ w) (hw2 : w ≤ 6) :
    0 ≤ weeklyDaysBack h mi s w now ∧ weeklyDaysBack h mi s w now ≤ 7 ∧
    (daysOf now + 4 - w - weeklyDaysBack h mi s w now) % 7 = 0 ∧
    (weeklyDaysBack h mi s w now = 0 →
      86400 * daysOf now + (3600 * h + 60 * mi + s) ≤ now) ∧
    (weeklyDaysBack h mi s w now = 7 →
      now < 86400 * daysOf now + (3600 * h + 60 * mi + s)) := by
  unfold weeklyDaysBack
  rw [mkDate_self now h mi s]
  unfold weekdayOf
  have hcs := clock_split now
  split <;> split <;> omega

theorem weekly_last_fire (h mi s w now r : Int)
    (hok : GetLastWeeklyTime h mi s w now = .ok r) :
    r ≤ now ∧ isWeeklyFire w h mi s r ∧
    ∀ t : Int, isWeeklyFire w h mi s t → r < t → ¬ t < now := by
  unfold GetLastWeeklyTime at hok
  split at hok
  · exact absurd hok (by simp)
  case isFalse hrange =>
  split at hok
  · exact absurd hok (by simp)
  case isFalse hwr =>
  have hcs := clock_split now
  have hdb := weeklyDaysBack_spec h mi s w now (by omega) (by omega)
  have htar := addDate_day now (-weeklyDaysBack h mi s w now)
  have hr : r = 86400 * (daysOf now - weeklyDaysBack h mi s w now) +
      (3600 * h + 60 * mi + s) := by
    have hok2 := hok
    rw [mkDate_self (addDate now 0 0 (-weeklyDaysBack h mi s w now)) h mi s, htar] at hok2
    have hdt : daysOf (86400 * (daysOf now + -weeklyDaysBack h mi s w now) + clockOf now) =
        daysOf now - weeklyDaysBack h mi s w now := by
      unfold daysOf
      omega
    rw [hdt] at hok2
    cases hok2
    omega
  refine ⟨by omega, ?_, ?_⟩
  · rw [isWeeklyFire_iff w h mi s r (by omega) (by omega) (by omega) (by omega) (by omega)
      (by omega)]
    constructor
    · have : r / 86400 = daysOf now - weeklyDaysBack h mi s w now := by omega
      omega
    · omega
  · intro t hft hrt
    rw [isWeeklyFire_iff w h mi s t (by omega) (by omega) (by omega) (by omega) (by omega)
      (by omega)] at hft
    have hkt : t = 86400 * (t / 86400) + (3600 * h + 60 * mi + s) := by omega
    omega

theorem mkDate_std (y m d h mi s : Int) (hm1 : 1 ≤ m) (hm2 : m ≤ 12) :
    mkDate y m d h mi s = 86400 * daysFromCivil y m d + (3600 * h + 60 * mi + s) := by
  unfold mkDate
  rw [(norm_id y (m - 1) (by omega) (by omega)).1, (norm_id y (m - 1) (by omega) (by omega)).2,
    show m - 1 + 1 = m from by omega]
  ring

theorem daysOf_split (X c : Int) (h1 : 0 ≤ c) (h2 : c < 86400) :
    daysOf (86400 * X + c) = X ∧ clockOf (86400 * X + c) = c := by
  unfold daysOf clockOf; omega

theorem daysFromCivil_linear (y m d k : Int) :
    daysFromCivil y m (d + k) = daysFromCivil y m d + k := by
  unfold daysFromCivil; ring

theorem daysFromCivil_feb31 (y : Int) :
    daysFromCivil y 2 31 = daysFromCivil y 3 (3 - (if isLeapYear y = true then 1 else 0)) := by
  unfold daysFromCivil daysBefore
  cases hL : isLeapYear y <;>
    simp only [Bool.false_eq_true, false_and, if_false, eq_self_iff_true, true_and, if_true,
      reduceIte] <;>
    omega

theorem daysFromCivil_feb0 (y : Int) : daysFromCivil y 2 0 = daysFromCivil y 1 31 := by
  unfold daysFromCivil daysBefore
  cases hL : isLeapYear y <;>
    simp only [Bool.false_eq_true, false_and, if_false, eq_self_iff_true, true_and, if_true,
      reduceIte] <;>
    omega

theorem daysInMonth_feb (y : Int) : 28 ≤ daysInMonth y 2 ∧ daysInMonth y 2 ≤ 29 := by
  unfold daysInMonth daysInMonthB daysBefore
  cases hL : isLeapYear y <;> simp <;> omega

/-- In February, GetLastMonthlyTime with dayOfMonth=31 always lands on January 31
    of the same year. -/
theorem monthly_feb_dom31 (h mi s now r : Int) (hm : monthOf now = 2)
    (hok : GetLastMonthlyTime h mi s 31 now = .ok r) :
    r = mkDate (yearOf now) 1 31 h mi s ∧ r < now ∧ monthOf r = 1 ∧ dayOf r = 31 := by
  unfold GetLastMonthlyTime at hok
  split at hok
  · exact absurd hok (by simp)
  case isFalse hrange =>
  have hcs := clock_split now
  have hcp := clock_parts now
  have hY : yearOf now = yearOfDays (daysOf now) := rfl
  have hD : dayOf now = dayOfDays (daysOf now) := rfl
  have ha := date_analysis (daysOf now)
  rw [show monthOfDays (daysOf now) = monthOf now from rfl, hm, ← hY, ← hD] at ha
  have hdim := daysInMonth_feb (yearOf now)
  have hoffr : 0 ≤ 3600 * h + 60 * mi + s ∧ 3600 * h + 60 * mi + s < 86400 := by omega
  -- this month's day-31 candidate normalizes into March
  have hthis : mkDate (yearOf now) (monthOf now) 31 h mi s =
      86400 * daysFromCivil (yearOf now) 3 (3 - (if isLeapYear (yearOf now) = true then 1 else 0)) +
        (3600 * h + 60 * mi + s) := by
    rw [hm, mkDate_std (yearOf now) 2 31 h mi s (by omega) (by omega),
      daysFromCivil_feb31 (yearOf now)]
  have hlb : (if isLeapYear (yearOf now) = true then (1 : Int) else 0) = 0 ∨
      (if isLeapYear (yearOf now) = true then (1 : Int) else 0) = 1 := by
    cases isLeapYear (yearOf now) <;> simp
  have hmar := date_synthesis_mar (yearOf now)
    (3 - (if isLeapYear (yearOf now) = true then 1 else 0)) (by omega) (by omega)
  have hthismonth : monthOf (mkDate (yearOf now) (monthOf now) 31 h mi s) = 3 := by
    show monthOfDays (daysOf (mkDate (yearOf now) (monthOf now) 31 h mi s)) = 3
    rw [hthis, (daysOf_split _ _ hoffr.1 hoffr.2).1]
    exact hmar.2.1
  -- the previous-month computation lands in January
  have hlm : addDate now 0 (-1) 0 =
      86400 * daysFromCivil (yearOf now) 1 (dayOf now) + clockOf now := by
    unfold addDate
    rw [hm, add_zero, add_zero, show (2 : Int) + -1 = 1 from rfl,
      mkDate_std (yearOf now) 1 (dayOf now) (hourOf now) (minuteOf now) (secondOf now)
        (by omega) (by omega), hcp.1]
  have hjanD := date_synthesis_jan (yearOf now) (dayOf now) (by omega) (by omega)
  have hlmY : yearOf (addDate now 0 (-1) 0) = yearOf now ∧
      monthOf (addDate now 0 (-1) 0) = 1 ∧ dayOf (addDate now 0 (-1) 0) = dayOf now := by
    unfold yearOf monthOf dayOf
    rw [hlm, (daysOf_split _ _ (by omega) (by omega)).1]
    exact ⟨hjanD.1, hjanD.2.1, by rw [hjanD.2.2]; exact hD⟩
  -- last day of the previous month: Date(year, 1+1, 0) = Jan 31
  have hjan31 := date_synthesis_jan (yearOf now) 31 (by omega) (by omega)
  have hld : mkDate (yearOf (addDate now 0 (-1) 0)) (monthOf (addDate now 0 (-1) 0) + 1) 0
      h mi s = 86400 * daysFromCivil (yearOf now) 1 31 + (3600 * h + 60 * mi + s) := by
    rw [hlmY.1, hlmY.2.1, mkDate_std (yearOf now) (1 + 1) 0 h mi s (by omega) (by omega),
      show (1 : Int) + 1 = 2 from rfl, daysFromCivil_feb0]
  have hldday : dayOf (mkDate (yearOf (addDate now 0 (-1) 0))
      (monthOf (addDate now 0 (-1) 0) + 1) 0 h mi s) = 31 := by
    show dayOfDays (daysOf (mkDate (yearOf (addDate now 0 (-1) 0))
      (monthOf (addDate now 0 (-1) 0) + 1) 0 h mi s)) = 31
    rw [hld, (daysOf_split _ _ hoffr.1 hoffr.2).1]
    exact hjan31.2.2
  have hfb : monthlyFallback h mi s 31 now =
      86400 * daysFromCivil (yearOf now) 1 31 + (3600 * h + 60 * mi + s) := by
    unfold monthlyFallback
    rw [hldday, if_neg (by omega), hlmY.1, hlmY.2.1,
      mkDate_std (yearOf now) 1 31 h mi s (by omega) (by omega)]
  have hs1 : monthlyStep1 h mi s 31 now = monthlyFallback h mi s 31 now := by
    unfold monthlyStep1
    rw [if_pos (by rw [hthismonth, hm]; omega)]
  -- Jan 31 is strictly before now (which is in February)
  have hjan31_lt : 86400 * daysFromCivil (yearOf now) 1 31 + (3600 * h + 60 * mi + s) < now := by
    have hlin := daysFromCivil_linear (yearOf now) 2 0 (dayOf now)
    rw [show (0 : Int) + dayOf now = dayOf now from by omega] at hlin
    have h20 := daysFromCivil_feb0 (yearOf now)
    have hDnow := ha.2.2.2.2
    omega
  have hs2 : monthlyStep2 h mi s 31 now = monthlyFallback h mi s 31 now := by
    unfold monthlyStep2
    rw [hs1, if_neg (by rw [hfb]; omega)]
  have hr : r = 86400 * daysFromCivil (yearOf now) 1 31 + (3600 * h + 60 * mi + s) := by
    rw [hs2, hfb] at hok
    cases hok
    rfl
  refine ⟨?_, by omega, ?_, ?_⟩
  · rw [hr, mkDate_std (yearOf now) 1 31 h mi s (by omega) (by omega)]
  · show monthOfDays (daysOf r) = 1
    rw [hr, (daysOf_split _ _ hoffr.1 hoffr.2).1]
    exact hjan31.2.1
  · show dayOfDays (daysOf r) = 31
    rw [hr, (daysOf_split _ _ hoffr.1 hoffr.2).1]
    exact hjan31.2.2

theorem cronLoop_ok (F : Int → Prop) (next : Int → Int) (now : Int) (hv : CronNext F next) :
    ∀ (fuel : Nat) (prev last : Int),
      F last →
      (prev = goZeroSecs ∨ (F prev ∧ prev < now ∧ last = next prev)) →
      (∃ k : Nat, k < fuel ∧ (now < iterN next k last ∨ iterN next k last = now)) →
      ∀ r : Int, cronLoop next now fuel prev last = .ok r →
        F r ∧ r < now ∧ ∀ u : Int, F u → r < u → ¬ u < now := by
  intro fuel
  induction fuel with
  | zero =>
    intro prev last _ _ hpass r _
    obtain ⟨k, hk, _⟩ := hpass
    omega
  | succ n ih =>
    intro prev last hFlast hinv hpass r hok
    unfold cronLoop at hok
    split at hok
    case isTrue hge =>
      split at hok
      · exact absurd hok (by simp)
      case isFalse hnz =>
        cases hok
        rcases hinv with hz | ⟨hFp, hplt, hlast⟩
        · exact absurd hz hnz
        · refine ⟨hFp, hplt, ?_⟩
          intro u hFu hpu
          have h3 := (hv prev).2.2 u hFu hpu
          rw [← hlast] at h3
          omega
    case isFalse hlt =>
      obtain ⟨k, hk, hkpass⟩ := hpass
      have hk0 : k ≠ 0 := by
        intro h0
        rw [h0] at hkpass
        unfold iterN at hkpass
        omega
      obtain ⟨k', rfl⟩ : ∃ k', k = k' + 1 := ⟨k - 1, by omega⟩
      exact ih last (next last) (hv last).1 (Or.inr ⟨hFlast, by omega, rfl⟩)
        ⟨k', by omega, hkpass⟩ r hok

/-- When the walk reaches `now` within the cap, GetLastCronTime returns the
    greatest firing strictly before `now`. -/
theorem cron_last_fire (F : Int → Prop) (next : Int → Int) (now : Int) (hv : CronNext F next)
    (hpass : ∃ k : Nat, k < 10000 ∧
      (now < iterN next k (next (addDate now (-1) 0 0)) ∨
        iterN next k (next (addDate now (-1) 0 0)) = now))
    (r : Int) (hok : GetLastCronTime next now = .ok r) :
    F r ∧ r < now ∧ ∀ u : Int, F u → r < u → ¬ u < now :=
  cronLoop_ok F next now hv 10000 goZeroSecs (next (addDate now (-1) 0 0))
    (hv (addDate now (-1) 0 0)).1 (Or.inl rfl) hpass r hok

/-- Closed form of the walk for the every-second schedule: the cap is exhausted
    and the walk stops 10000 seconds after the start. -/
theorem cronLoop_succ_closed (now : Int) : ∀ (fuel : Nat) (prev last : Int),
    last + fuel ≤ now → 1 ≤ fuel → last + (fuel - 1 : Nat) ≠ goZeroSecs →
    cronLoop (fun t => t + 1) now fuel prev last = .ok (last + (fuel - 1 : Nat)) := by
  intro fuel
  induction fuel with
  | zero => intro prev last _ hf _; omega
  | succ n ih =>
    intro prev last hle _ hnz
    unfold cronLoop
    rw [if_neg (by push_cast at hle ⊢; omega)]
    rcases Nat.eq_zero_or_pos n with hn0 | hnpos
    · subst hn0
      unfold cronLoop
      rw [if_neg (by simpa using hnz)]
      congr 1
      push_cast
      omega
    · rw [ih last (last + 1) (by push_cast at hle ⊢; omega) hnpos
        (by push_cast at hnz ⊢; omega)]
      congr 1
      push_cast
      omega

-- ===== theorems =====
theorem executor_optimistic (action : String) (e : String) (opResult : Except String Unit)
    (hact : action = "start" ∨ action = "stop") :
    (executorRun action false (.error e) opResult).operatorCalled = some action := by
  rcases hact with h | h <;> subst h <;>
    cases opResult <;> rfl

theorem getState_default (vmq clq : Except String String) (r : Resource)
    (h1 : r.type ≠ "vm") (h2 : r.type ≠ "k8s_cluster") :
    GetState vmq clq r = .ok ("", false) := by
  unfold GetState
  rw [if_neg h1, if_neg h2]

theorem validator_state_error_skips (getStateF : Resource → Except String (String × Bool))
    (sch : Schedule) (now : Int) (e : String) (pre post : List Schedule)
    (herr : getStateF sch.resource = .error e) :
    validatorCheckOne getStateF sch now = [] ∧
    runOnce getStateF (pre ++ sch :: post) now =
      runOnce getStateF pre now ++ runOnce getStateF post now := by
  have h1 : validatorCheckOne getStateF sch now = [] := by
    unfold validatorCheckOne
    rw [herr]
  refine ⟨h1, ?_⟩
  induction pre with
  | nil => simp [runOnce, h1]
  | cons p ps ih => simp [runOnce, ih, List.append_assoc]

theorem registerAction_ok (jobs : List Job) (sch : Schedule) (act : Option ActionConfig)
    (suffix : String) (res : List Job) (h : registerAction jobs sch act suffix = .ok res) :
    res = jobs ++ actionJobs sch act suffix := by
  rcases act with _ | a
  · replace h : (Except.ok jobs : Except String (List Job)) = .ok res := h
    cases h
    simp [actionJobs]
  · simp only [registerAction] at h
    simp only [actionJobs]
    by_cases ha : a.enabled = true
    · rw [if_pos ha] at h
      rw [if_pos ha]
      rcases hd : ScheduleToJobDefinition sch a with e | d <;> rw [hd] at h
      · exact absurd h (by simp)
      · replace h : (Except.ok (addJobUnlocked jobs (sch.name ++ suffix)) :
          Except String (List Job)) = .ok res := h
        cases h
        simp [addJobUnlocked]
    · rw [if_neg ha] at h
      rw [if_neg ha]
      cases h
      simp

theorem registerScheduleUnlocked_ok (jobs : List Job) (sch : Schedule)
    (res : List Job) (h : registerScheduleUnlocked jobs sch = .ok res) :
    res = jobs ++ scheduleJobs sch := by
  unfold registerScheduleUnlocked at h
  rcases h1 : registerAction jobs sch sch.actions.start ":start" with e | jobs1 <;>
    rw [h1] at h
  · replace h : (Except.error e : Except String (List Job)) = .ok res := h
    exact absurd h (by simp)
  · replace h : registerAction jobs1 sch sch.actions.stop ":stop" = .ok res := h
    have ha := registerAction_ok jobs sch sch.actions.start ":start" jobs1 h1
    have hb := registerAction_ok jobs1 sch sch.actions.stop ":stop" res h
    rw [hb, ha]
    simp [scheduleJobs]

theorem registerAll_ok (schedules : List Schedule) :
    ∀ (jobs res : List Job), registerAll jobs schedules = .ok res →
      res = jobs ++ schedulesJobs schedules := by
  induction schedules with
  | nil =>
    intro jobs res h
    replace h : (Except.ok jobs : Except String (List Job)) = .ok res := h
    cases h
    simp [schedulesJobs]
  | cons sch rest ih =>
    intro jobs res h
    unfold registerAll at h
    rcases hr : registerScheduleUnlocked jobs sch with e | jobs1 <;> rw [hr] at h
    · replace h : (Except.error e : Except String (List Job)) = .ok res := h
      exact absurd h (by simp)
    · replace h : registerAll jobs1 rest = .ok res := h
      have h1 := registerScheduleUnlocked_ok jobs sch jobs1 hr
      have h2 := ih jobs1 res h
      rw [h2, h1]
      simp [schedulesJobs]

theorem replaceSchedules_frame (jobs : List Job) (schedules : List Schedule)
    (res : List Job) (h : ReplaceSchedules jobs schedules = .ok res) :
    res = removeByTags jobs managedScheduleTag ++ schedulesJobs schedules ∧
    (∀ j ∈ jobs, ¬managedScheduleTag ∈ j.tags → j ∈ res) := by
  have h1 := registerAll_ok schedules (removeByTags jobs managedScheduleTag) res h
  refine ⟨h1, ?_⟩
  intro j hj htag
  rw [h1]
  apply List.mem_append_left
  unfold removeByTags
  rw [List.mem_filter]
  refine ⟨hj, ?_⟩
  simp [htag]

theorem reloader_tick_updates (st : ReloaderState) (sig : Nat)
    (cb : Except String Unit) (hch : ¬(st.hasLastSig = true ∧ sig = st.lastSig)) :
    tick st (.ok sig) cb = (⟨sig, true⟩, true) := by
  show (if st.hasLastSig = true ∧ sig = st.lastSig then (st, false)
      else match cb with
        | .error _ => ((⟨sig, true⟩ : ReloaderState), true)
        | .ok _ => ((⟨sig, true⟩ : ReloaderState), true)) = ((⟨sig, true⟩ : ReloaderState), true)
  rw [if_neg hch]
  cases cb <;> rfl

theorem validator_later_wins (sch : Schedule) (now : Int) (sa so : ActionConfig)
    (hs : sch.actions.start = some sa) (ht : sch.actions.stop = some so)
    (hsa : sa.enabled = true) (hso : so.enabled = true)
    (ts tp : Int) (hts : getLastExecutionTime sch sa now = .ok ts)
    (htp : getLastExecutionTime sch so now = .ok tp) :
    (tp < ts → determineExpectedState sch now = ("running", "start")) ∧
    (ts < tp → determineExpectedState sch now = ("stopped", "stop")) := by
  have h1 : hasStart sch = true := by unfold hasStart; rw [hs]; exact hsa
  have h2 : hasStop sch = true := by unfold hasStop; rw [ht]; exact hso
  have heval : determineExpectedState sch now =
      (if tp < ts then ("running", "start") else ("stopped", "stop")) := by
    unfold determineExpectedState
    rw [h1, h2]
    simp only [eq_self_iff_true, not_true, and_false, false_and, and_true, true_and,
      if_false, if_true, reduceIte, hs, ht, hts, htp]
  rw [heval]
  constructor
  · intro hlt; rw [if_pos hlt]
  · intro hlt; rw [if_neg (by omega)]

theorem validator_error_defaults (sch : Schedule) (now : Int) (sa so : ActionConfig)
    (hs : sch.actions.start = some sa) (ht : sch.actions.stop = some so)
    (hsa : sa.enabled = true) (hso : so.enabled = true) :
    (∀ e : String, getLastExecutionTime sch sa now = .error e →
      determineExpectedState sch now = ("running", "start")) ∧
    (∀ ts e, getLastExecutionTime sch sa now = .ok ts →
      getLastExecutionTime sch so now = .error e →
      determineExpectedState sch now = ("stopped", "stop")) := by
  have h1 : hasStart sch = true := by unfold hasStart; rw [hs]; exact hsa
  have h2 : hasStop sch = true := by unfold hasStop; rw [ht]; exact hso
  constructor
  · intro e he
    unfold determineExpectedState
    rw [h1, h2]
    simp only [eq_self_iff_true, not_true, and_false, false_and, and_true, true_and,
      if_false, if_true, reduceIte, hs, ht, he]
  · intro ts e hok he
    unfold determineExpectedState
    rw [h1, h2]
    simp only [eq_self_iff_true, not_true, and_false, false_and, and_true, true_and,
      if_false, if_true, reduceIte, hs, ht, hok, he]

theorem lockStep_inv (s : LockState) (tid : Bool) (h : LockInv s) : LockInv (lockStep s tid) := by
  obtain ⟨pa, pb, held, ops, skA, skB⟩ := s
  unfold LockInv at h ⊢
  simp only at h ⊢
  obtain ⟨h1, h2, h3, h4, h5, h6, h7, h8, h9⟩ := h
  cases tid
  · simp only [lockStep, reduceIte]
    interval_cases pa <;> cases held <;> cases skA <;> cases skB <;> simp_all <;> try omega
  · simp only [lockStep, reduceIte]
    interval_cases pb <;> cases held <;> cases skA <;> cases skB <;> simp_all <;> try omega

theorem lockRun_inv (tr : List Bool) : ∀ s : LockState, LockInv s → LockInv (lockRun s tr) := by
  induction tr with
  | nil => intro s h; exact h
  | cons t ts ih => intro s h; exact ih (lockStep s t) (lockStep_inv s t h)

theorem lock_exclusion (tr : List Bool)
    (hA : (lockRun lockInit tr).pcA = 3 ∨ (lockRun lockInit tr).pcA = 4)
    (hB : (lockRun lockInit tr).pcB = 3 ∨ (lockRun lockInit tr).pcB = 4)
    (hskip : (lockRun lockInit tr).skippedB = true) :
    (lockRun lockInit tr).ops = 1 ∧ (lockRun lockInit tr).pcB = 4 ∧
    (lockRun lockInit tr).held = false := by
  have hinv := lockRun_inv tr lockInit (by unfold LockInv lockInit; simp)
  obtain ⟨h1, h2, h3, h4, h5, h6, h7, h8, h9⟩ := hinv
  have hpb : (lockRun lockInit tr).pcB = 4 := h7.mp hskip
  have hpa : (lockRun lockInit tr).pcA = 3 := by
    rcases hA with h | h
    · exact h
    · have := h8 h
      omega
  rw [hpa, hpb] at h3
  norm_num at h3
  refine ⟨by omega, hpb, ?_⟩
  rcases hh : (lockRun lockInit tr).held with _ | _
  · rfl
  · have := h4.mp hh
    omega

theorem daily_ok (h mi s now : Int)
    (hr : ¬(h < 0 ∨ 23 < h ∨ mi < 0 ∨ 59 < mi ∨ s < 0 ∨ 59 < s)) :
    ∃ r : Int, GetLastDailyTime h mi s now = .ok r := by
  unfold GetLastDailyTime
  rw [if_neg hr]
  split <;> exact ⟨_, rfl⟩

theorem weekly_ok (h mi s w now : Int)
    (hr : ¬(h < 0 ∨ 23 < h ∨ mi < 0 ∨ 59 < mi ∨ s < 0 ∨ 59 < s))
    (hw : ¬(w < 0 ∨ 6 < w)) :
    ∃ r : Int, GetLastWeeklyTime h mi s w now = .ok r := by
  unfold GetLastWeeklyTime
  rw [if_neg hr, if_neg hw]
  exact ⟨_, rfl⟩

theorem cron_cap_parts :
    CronNext (fun _ => True) (fun t => t + 1) ∧
    GetLastCronTime (fun t => t + 1) 0 = .ok (-31526000) ∧
    (-31526000 : Int) < -1000 ∧ (-1000 : Int) < 0 := by
  refine ⟨fun t => ⟨trivial, by show t < t + 1; omega, fun u _ hu => by show t + 1 ≤ u; omega⟩,
    ?_, by norm_num, by norm_num⟩
  have hstart : addDate 0 (-1) 0 0 = -31536000 := by decide
  unfold GetLastCronTime
  rw [hstart]
  show cronLoop (fun t => t + 1) 0 10000 goZeroSecs (-31535999) = .ok (-31526000)
  rw [cronLoop_succ_closed 0 10000 goZeroSecs (-31535999) (by norm_num) (by norm_num)
    (by decide)]
  norm_num

/-- C1: for one (resourceType, id, action) key, two concurrent invocations of the
    executor closure perform exactly one operator call: when both invocations have
    completed and the second one observed the key in flight (recording
    "skipped: in-flight"), the total operator-call count is 1, the second
    invocation never reached the operator, and the key is released. -/
theorem claim_C1_inflight_at_most_once (tr : List Bool)
    (hA : (lockRun lockInit tr).pcA = 3 ∨ (lockRun lockInit tr).pcA = 4)
    (hB : (lockRun lockInit tr).pcB = 3 ∨ (lockRun lockInit tr).pcB = 4)
    (hskip : (lockRun lockInit tr).skippedB = true) :
    (lockRun lockInit tr).ops = 1 ∧ (lockRun lockInit tr).pcB = 4 ∧
    (lockRun lockInit tr).held = false :=
  lock_exclusion tr hA hB hskip

/-- C1 witness: the test's interleaving (A acquires, B tries while A is in
    flight, A operates, A releases). -/
theorem claim_C1_witness :
    ((lockRun lockInit [false, true, false, false]).pcA = 3 ∨
      (lockRun lockInit [false, true, false, false]).pcA = 4) ∧
    (lockRun lockInit [false, true, false, false]).ops = 1 ∧
    (lockRun lockInit [false, true, false, false]).pcB = 4 ∧
    (lockRun lockInit [false, true, false, false]).held = false :=
  ⟨by decide,
    claim_C1_inflight_at_most_once [false, true, false, false] (by decide) (by decide)
      (by decide)⟩

/-- C2 counterexample: the claim "the last-fire computation returns a timestamp
    strictly before now" fails for GetLastMonthlyTime at dayOfMonth=31 with
    now = 2025-03-30 10:00, where the returned timestamp 2025-03-31 09:00 lies
    after now. -/
theorem claim_C2_counterexample :
    ¬(∀ (h mi s dom now r : Int), GetLastMonthlyTime h mi s dom now = .ok r → r < now) := by
  intro hall
  have h1 := hall 9 0 0 31 (mkDate 2025 3 30 10 0 0) (mkDate 2025 3 31 9 0 0) (by decide)
  have h2 : ¬(mkDate 2025 3 31 9 0 0 < mkDate 2025 3 30 10 0 0) := by decide
  exact h2 h1

/-- C2 (amended): Daily results are firings strictly before now with no firing
    strictly between; Weekly results are firings at-or-before now with no firing
    strictly between; Cron results are firings strictly before now with no
    firing strictly between whenever the forward walk reaches now within the
    10000-step cap, but a capped walk (every-second schedule) stops about a
    year early with firings in between; Monthly can return a timestamp after
    now (2025-03-30 example). -/
theorem claim_C2_last_fire_amended :
    (∀ h mi s now : Int, 0 ≤ h → h ≤ 23 → 0 ≤ mi → mi ≤ 59 → 0 ≤ s → s ≤ 59 →
      ∃ r : Int, GetLastDailyTime h mi s now = .ok r ∧ r < now ∧ isDailyFire h mi s r ∧
        ∀ t : Int, isDailyFire h mi s t → r < t → ¬ t < now) ∧
    (∀ h mi s w now : Int, 0 ≤ h → h ≤ 23 → 0 ≤ mi → mi ≤ 59 → 0 ≤ s → s ≤ 59 →
      0 ≤ w → w ≤ 6 →
      ∃ r : Int, GetLastWeeklyTime h mi s w now = .ok r ∧ r ≤ now ∧ isWeeklyFire w h mi s r ∧
        ∀ t : Int, isWeeklyFire w h mi s t → r < t → ¬ t < now) ∧
    (∀ (F : Int → Prop) (next : Int → Int) (now : Int), CronNext F next →
      (∃ k : Nat, k < 10000 ∧ (now < iterN next k (next (addDate now (-1) 0 0)) ∨
        iterN next k (next (addDate now (-1) 0 0)) = now)) →
      ∀ r : Int, GetLastCronTime next now = .ok r →
        F r ∧ r < now ∧ ∀ u : Int, F u → r < u → ¬ u < now) ∧
    (CronNext (fun _ => True) (fun t => t + 1) ∧
      GetLastCronTime (fun t => t + 1) 0 = .ok (-31526000) ∧
      (-31526000 : Int) < -1000 ∧ (-1000 : Int) < 0) ∧
    (GetLastMonthlyTime 9 0 0 31 (mkDate 2025 3 30 10 0 0) = .ok (mkDate 2025 3 31 9 0 0) ∧
      mkDate 2025 3 30 10 0 0 < mkDate 2025 3 31 9 0 0) := by
  refine ⟨?_, ?_, ?_, cron_cap_parts, by decide⟩
  · intro h mi s now h1 h2 h3 h4 h5 h6
    obtain ⟨r, hok⟩ := daily_ok h mi s now (by omega)
    obtain ⟨ha, hb, hc⟩ := daily_last_fire h mi s now r hok
    exact ⟨r, hok, ha, hb, hc⟩
  · intro h mi s w now h1 h2 h3 h4 h5 h6 h7 h8
    obtain ⟨r, hok⟩ := weekly_ok h mi s w now (by omega) (by omega)
    obtain ⟨ha, hb, hc⟩ := weekly_last_fire h mi s w now r hok
    exact ⟨r, hok, ha, hb, hc⟩
  · exact fun F next now hv hpass r hok => cron_last_fire F next now hv hpass r hok

/-- C2 witness: the daily clause at 09:00:00 with now = 2025-03-30 10:00. -/
theorem claim_C2_witness :
    ∃ r : Int, GetLastDailyTime 9 0 0 (mkDate 2025 3 30 10 0 0) = .ok r ∧
      r < mkDate 2025 3 30 10 0 0 ∧ isDailyFire 9 0 0 r ∧
      ∀ t : Int, isDailyFire 9 0 0 t → r < t → ¬ t < mkDate 2025 3 30 10 0 0 :=
  claim_C2_last_fire_amended.1 9 0 0 (mkDate 2025 3 30 10 0 0) (by decide) (by decide)
    (by decide) (by decide) (by decide) (by decide)

/-- C3 counterexample: the claim "on a failed reload the stored baseline
    signature is left unchanged" is false: with baseline 0 and a new signature 1,
    a failing callback still stores 1. -/
theorem claim_C3_counterexample :
    ¬(∀ (st : ReloaderState) (sig : Nat) (e : String),
      ¬(st.hasLastSig = true ∧ sig = st.lastSig) →
      (tick st (.ok sig) (.error e)).1.lastSig = st.lastSig) := by
  intro hall
  have h1 := hall ⟨0, true⟩ 1 ("boom") (by simp)
  have h2 : (tick ⟨0, true⟩ (.ok 1) (.error ("boom"))).1.lastSig = 1 := by decide
  rw [h1] at h2
  exact absurd h2 (by decide)

/-- C3 (amended): on every tick where the signature is read successfully and a
    change is detected, the Reloader stores the new signature as its baseline
    whether or not the reload callback succeeds, so a failing manifest set is
    not re-detected as a change on the next tick; the callback is invoked. -/
theorem claim_C3_baseline_updated_unconditionally (st : ReloaderState) (sig : Nat)
    (cb : Except String Unit) (hch : ¬(st.hasLastSig = true ∧ sig = st.lastSig)) :
    tick st (.ok sig) cb = (⟨sig, true⟩, true) :=
  reloader_tick_updates st sig cb hch

/-- C3 witness: a detected change with a failing callback stores the new
    signature. -/
theorem claim_C3_witness :
    tick ⟨0, true⟩ (.ok 1) (.error ("boom")) = (⟨1, true⟩, true) :=
  claim_C3_baseline_updated_unconditionally ⟨0, true⟩ 1 (.error ("boom")) (by simp)

/-- C4 counterexample: the claim "GetLastMonthlyTime with dayOfMonth=31 in
    February returns a timestamp on the last day of February" is false: at
    2025-02-15 12:00 the result is in January (month 1), not February. -/
theorem claim_C4_counterexample :
    ¬(∀ now r : Int, monthOf now = 2 → GetLastMonthlyTime 9 0 0 31 now = .ok r →
      monthOf r = 2) := by
  intro hall
  have h1 := hall (mkDate 2025 2 15 12 0 0) (mkDate 2025 1 31 9 0 0) (by decide) (by decide)
  exact absurd h1 (by decide)

/-- C4 (amended): for every instant now in February and every time-of-day,
    GetLastMonthlyTime with dayOfMonth=31 returns January 31 of the same year at
    the trigger time — strictly before now, not an error, not a date in March,
    and not in February either. -/
theorem claim_C4_feb_day31_returns_jan31 (h mi s now r : Int) (hm : monthOf now = 2)
    (hok : GetLastMonthlyTime h mi s 31 now = .ok r) :
    r = mkDate (yearOf now) 1 31 h mi s ∧ r < now ∧ monthOf r = 1 ∧ dayOf r = 31 :=
  monthly_feb_dom31 h mi s now r hm hok

/-- C4 witness: February 15, 2025 at 12:00 with a 09:00 trigger. -/
theorem claim_C4_witness :
    mkDate 2025 1 31 9 0 0 = mkDate (yearOf (mkDate 2025 2 15 12 0 0)) 1 31 9 0 0 ∧
    mkDate 2025 1 31 9 0 0 < mkDate 2025 2 15 12 0 0 ∧
    monthOf (mkDate 2025 1 31 9 0 0) = 1 ∧ dayOf (mkDate 2025 1 31 9 0 0) = 31 :=
  claim_C4_feb_day31_returns_jan31 9 0 0 (mkDate 2025 2 15 12 0 0) (mkDate 2025 1 31 9 0 0)
    (by decide) (by decide)

/-- C5: with both actions enabled and both last-fire computations succeeding,
    the expected state is decided by the chronologically later fire (start later
    means running/start, stop later means stopped/stop); in particular, for the
    daily 09:00/18:00 schedule the expected state at 20:00 is stopped and at
    10:00 is running. -/
theorem claim_C5_later_fire_wins :
    (∀ (sch : Schedule) (now : Int) (sa so : ActionConfig),
      sch.actions.start = some sa → sch.actions.stop = some so →
      sa.enabled = true → so.enabled = true →
      ∀ ts tp : Int, getLastExecutionTime sch sa now = .ok ts →
        getLastExecutionTime sch so now = .ok tp →
        (tp < ts → determineExpectedState sch now = ("running", "start")) ∧
        (ts < tp → determineExpectedState sch now = ("stopped", "stop"))) ∧
    determineExpectedState sampleDailySchedule (mkDate 2025 3 28 20 0 0) =
      ("stopped", "stop") ∧
    determineExpectedState sampleDailySchedule (mkDate 2025 3 28 10 0 0) =
      ("running", "start") := by
  refine ⟨?_, by decide, by decide⟩
  exact fun sch now sa so hs ht hsa hso ts tp hts htp =>
    validator_later_wins sch now sa so hs ht hsa hso ts tp hts htp

/-- C5 witness: the sample schedule at 2025-03-28 20:00, via the universal part. -/
theorem claim_C5_witness :
    determineExpectedState sampleDailySchedule (mkDate 2025 3 28 20 0 0) =
      ("stopped", "stop") :=
  (claim_C5_later_fire_wins.1 sampleDailySchedule (mkDate 2025 3 28 20 0 0) startAt9 stopAt18
    rfl rfl rfl rfl (mkDate 2025 3 28 9 0 0) (mkDate 2025 3 28 18 0 0)
    (by decide) (by decide)).2 (by decide)

/-- C6: with both actions enabled, a failing start computation defaults the
    expected state to running/start, and a succeeding start with a failing stop
    computation defaults to stopped/stop. -/
theorem claim_C6_error_defaults (sch : Schedule) (now : Int) (sa so : ActionConfig)
    (hs : sch.actions.start = some sa) (ht : sch.actions.stop = some so)
    (hsa : sa.enabled = true) (hso : so.enabled = true) :
    (∀ e : String, getLastExecutionTime sch sa now = .error e →
      determineExpectedState sch now = ("running", "start")) ∧
    (∀ (ts : Int) (e : String), getLastExecutionTime sch sa now = .ok ts →
      getLastExecutionTime sch so now = .error e →
      determineExpectedState sch now = ("stopped", "stop")) :=
  validator_error_defaults sch now sa so hs ht hsa hso

/-- C6 witness: schedules whose start (respectively stop) trigger has no time. -/
theorem claim_C6_witness :
    determineExpectedState sampleMissingStartTime (mkDate 2025 3 28 12 0 0) =
      ("running", "start") ∧
    determineExpectedState sampleMissingStopTime (mkDate 2025 3 28 12 0 0) =
      ("stopped", "stop") :=
  ⟨(claim_C6_error_defaults sampleMissingStartTime (mkDate 2025 3 28 12 0 0) noTimeAction
      stopAt18 rfl rfl rfl rfl).1 ("daily schedule missing time") (by decide),
   (claim_C6_error_defaults sampleMissingStopTime (mkDate 2025 3 28 12 0 0) startAt9
      noTimeAction rfl rfl rfl rfl).2 (mkDate 2025 3 28 9 0 0)
      ("daily schedule missing time") (by decide) (by decide)⟩

/-- C7: ReplaceSchedules removes exactly the managed-tagged jobs and appends the
    jobs derived from the new schedules; every untagged job (in particular a
    pending AddOneTimeJob one-shot) survives unchanged; the spec's concrete
    example produces exactly the one-shot plus the new stop job. -/
theorem claim_C7_replace_frame :
    (∀ (jobs : List Job) (schedules : List Schedule) (res : List Job),
      ReplaceSchedules jobs schedules = .ok res →
      res = removeByTags jobs managedScheduleTag ++ schedulesJobs schedules ∧
      ∀ j ∈ jobs, ¬managedScheduleTag ∈ j.tags → j ∈ res) ∧
    (∀ (jobs : List Job) (name : String) (schedules : List Schedule) (res : List Job),
      ReplaceSchedules (AddOneTimeJob jobs name) schedules = .ok res →
      (⟨name, []⟩ : Job) ∈ res) ∧
    ReplaceSchedules exampleJobsBefore [newStopSchedule] = .ok exampleJobsAfter := by
  refine ⟨fun jobs schedules res h => replaceSchedules_frame jobs schedules res h, ?_, by decide⟩
  intro jobs name schedules res h
  have hf := replaceSchedules_frame (AddOneTimeJob jobs name) schedules res h
  refine hf.2 ⟨name, []⟩ ?_ (by simp)
  unfold AddOneTimeJob
  simp

/-- C7 witness: the spec example, via the general frame property. -/
theorem claim_C7_witness :
    exampleJobsAfter =
      removeByTags exampleJobsBefore managedScheduleTag ++ schedulesJobs [newStopSchedule] ∧
    (⟨"validator:keep", ([] : List String)⟩ : Job) ∈ exampleJobsAfter :=
  ⟨(claim_C7_replace_frame.1 exampleJobsBefore [newStopSchedule] exampleJobsAfter
      (by decide)).1,
   (claim_C7_replace_frame.1 exampleJobsBefore [newStopSchedule] exampleJobsAfter
      (by decide)).2 ⟨"validator:keep", []⟩ (by decide) (by decide)⟩

/-- C8: with a valid action and dryRun false, a failing state query still leads
    to the operator being invoked for that action. -/
theorem claim_C8_state_error_proceeds (action : String) (e : String)
    (opResult : Except String Unit) (hact : action = "start" ∨ action = "stop") :
    (executorRun action false (.error e) opResult).operatorCalled = some action :=
  executor_optimistic action e opResult hact

/-- C8 witness: a start with a failed state query calls the operator. -/
theorem claim_C8_witness :
    (executorRun "start" false (.error ("boom")) (.ok ())).operatorCalled = some "start" :=
  claim_C8_state_error_proceeds "start" ("boom") (.ok ()) (Or.inl rfl)

/-- C9: when the live-state query for a schedule errors, the Validator submits
    no corrective job for that schedule on that tick, and the remaining
    schedules are processed exactly as if the failing one were absent. -/
theorem claim_C9_state_error_no_job (getStateF : Resource → Except String (String × Bool))
    (sch : Schedule) (now : Int) (e : String) (pre post : List Schedule)
    (herr : getStateF sch.resource = .error e) :
    validatorCheckOne getStateF sch now = [] ∧
    runOnce getStateF (pre ++ sch :: post) now =
      runOnce getStateF pre now ++ runOnce getStateF post now :=
  validator_state_error_skips getStateF sch now e pre post herr

/-- C9 witness: an always-failing state checker yields no corrective job. -/
theorem claim_C9_witness :
    validatorCheckOne (fun _ => .error ("boom")) sampleDailySchedule
      (mkDate 2025 3 28 20 0 0) = [] ∧
    runOnce (fun _ => .error ("boom"))
      ([sampleDailySchedule] ++ sampleDailySchedule :: []) (mkDate 2025 3 28 20 0 0) =
      runOnce (fun _ => .error ("boom")) [sampleDailySchedule] (mkDate 2025 3 28 20 0 0) ++
      runOnce (fun _ => .error ("boom")) [] (mkDate 2025 3 28 20 0 0) :=
  claim_C9_state_error_no_job (fun _ => .error ("boom")) sampleDailySchedule
    (mkDate 2025 3 28 20 0 0) ("boom") [sampleDailySchedule] [] rfl

/-- C10: for a resource type that is neither vm nor k8s_cluster, GetState
    returns the empty state, isTransitional false, and no error — the same shape
    as a successful observation. -/
theorem claim_C10_unknown_type_ok (vmq clq : Except String String) (r : Resource)
    (h1 : r.type ≠ "vm") (h2 : r.type ≠ "k8s_cluster") :
    GetState vmq clq r = .ok ("", false) :=
  getState_default vmq clq r h1 h2

/-- C10 witness: a database resource. -/
theorem claim_C10_witness :
    GetState (.ok ("RUNNING")) (.ok ("RUNNING")) ⟨"database", "db-1", "folder-1"⟩ =
      .ok ("", false) :=
  claim_C10_unknown_type_ok (.ok ("RUNNING")) (.ok ("RUNNING"))
    ⟨"database", "db-1", "folder-1"⟩ (by decide) (by decide)
